import Mathlib

/-!
Verification of the xmega IO subsystem of the TinyG repository
(file `TinyG_b119_L/xmega_io.c`, with constants from `IOsystem_b009/xmega_io.h`).

The development shallowly embeds the device control block (`struct fdUSART`),
the two receive interrupt handlers, the low-level character reader and writer,
the mode-dispatch read and write engines (`_read_usb`, `_write_usb`), the
open path (`_open_USART`, `_open_usb`, `xio_open`) and the dispatcher entry
points.  Machine integers are modelled as `Nat`/`Int` with explicit 8-bit
wraparound where the C code relies on it; the global `errno` and the bytes
written to the USARTC0 data register are threaded through an explicit system
state.  Hardware-register writes (baud-rate registers, port direction bits)
have no observable effect on the properties treated here and are not part of
the state.
-/

/- ===================== constants from the headers ===================== -/

/-- Receive ring buffer capacity.  Modelled from the spec: the header of the
`TinyG_b119_L` build defining `USART_RX_BUFSIZE` is not in the sources; the
spec states a typical capacity of 32 and the `IOsystem_b009` header defines
`RX_BUFSIZE` as 32. -/
def USART_RX_BUFSIZE : Nat := 32

/-- Default read limit base.  Modelled from the spec: `READ_BUFFER_SIZE` is
defined in the missing `TinyG_b119_L` header; `_open_USART` sets the default
read limit to this value minus one (room for the terminating NUL). -/
def READ_BUFFER_SIZE : Int := 32

/-- Sentinel meaning an unbounded transfer limit.  Modelled from the spec:
`NO_LIMIT` is defined in the missing `TinyG_b119_L` header; the code only
compares limits against it, so any value outside the positive limit range
works, and 0 is used here. -/
def NO_LIMIT : Int := 0

/-- Read or write by byte count (`SIZE_MODE`, from `IOsystem_b009/xmega_io.h`). -/
def SIZE_MODE : Int := 0

/-- Read or write to delimiter (`LINE_MODE -1`). -/
def LINE_MODE : Int := -1

/-- Read or write to NUL (`STR_MODE -2`; named `NUL_MODE` in the
`IOsystem_b009` header, value -2 in both). -/
def STR_MODE : Int := -2

/-- Write a program-memory string to NUL.  Modelled from the spec: the value
-3 for `PSTR_MODE` is given by the spec and by the mode table in the comment
block of `xmega_io.c`. -/
def PSTR_MODE : Int := -3

/-- The ASCII NUL character. -/
def NUL : Int := 0

/-- Value returned by `xio_getc`/`xio_putc` on a bad file descriptor.
Modelled from the spec: `ERR_EOF` is defined in the missing header; it is a
char-typed error sentinel and -1 is used here. -/
def ERR_EOF : Int := -1

/- Device numbers (from `IOsystem_b009/xmega_io.h`). -/

def DEV_USARTC0 : Nat := 17
def DEV_USARTC1 : Nat := 18
def DEV_USB : Nat := 43
def DEV_RS485 : Nat := 44

/- File descriptors. -/

def FD_USB : Nat := 1
def FD_RS485 : Nat := 2

/- `io_open`/`io_control` parameter bits (from `IOsystem_b009/xmega_io.h`). -/

def IO_BAUD_gm : Nat := 0x0000000F
def IO_RDONLY : Nat := 256
def IO_WRONLY : Nat := 512
def IO_ECHO : Nat := 1024
def IO_NOECHO : Nat := 2048
def IO_RDBLOCK : Nat := 4096
def IO_WRBLOCK : Nat := 8192
def IO_RDNONBLOCK : Nat := 16384
def IO_WRNONBLOCK : Nat := 32768

def IO_BAUD_UNSPECIFIED : Nat := 0
def IO_BAUD_DEFAULT : Nat := 5

/- Flag bits of `fdUSART.flags` (from `IOsystem_b009/xmega_io.h`). -/

def IO_FLAG_RD_bm : Nat := 1
def IO_FLAG_WR_bm : Nat := 2
def IO_FLAG_RD_BLOCK_bm : Nat := 4
def IO_FLAG_WR_BLOCK_bm : Nat := 8
def IO_FLAG_ECHO_CHAR_bm : Nat := 16

/-- Default flag group: read, write, blocking reads, character echo. -/
def IO_FLAG_DEFAULT_gm : Nat :=
  IO_FLAG_RD_bm ||| IO_FLAG_WR_bm ||| IO_FLAG_RD_BLOCK_bm ||| IO_FLAG_ECHO_CHAR_bm

/-- `BLOCKING_ENABLED(a)` macro: the read-blocking bit of a flag word. -/
def BLOCKING_ENABLED (a : Nat) : Nat := a &&& IO_FLAG_RD_BLOCK_bm

/-- `ECHO_ENABLED(a)` macro: the character-echo bit of a flag word. -/
def ECHO_ENABLED (a : Nat) : Nat := a &&& IO_FLAG_ECHO_CHAR_bm

/- ===================== data model ===================== -/

/-- The process-wide error number.  The numeric values of the error codes
live in `xmega_errno.h`, which is not in the sources; only their identities
matter, so they are modelled as an enumeration, with `ok` standing for the
initial value 0. -/
inductive Errno where
  | ok
  | EAGAIN
  | EINVAL
  | EFBIG
  | EMSGSIZE
  | ENODEV
  | EBADF
  | EWTF
deriving DecidableEq, Repr

/-- `struct fdUSART`: one device control block.  The buffer array is a total
map from index to stored char value; the C code only ever touches indices
that fit the 32-byte array in valid states.  The hardware pointers (`usart`,
`port`) and the per-device function pointers carry no state relevant here
and are omitted. -/
structure FdUSART where
  fd : Nat
  baud : Nat
  flags : Nat
  rx_buf_tail : Nat
  rx_buf_head : Nat
  tx_buf_tail : Nat
  tx_buf_head : Nat
  rx_buf : Nat → Int
  rx_size_max : Int
  tx_size_max : Int

/-- The two pre-allocated logical devices. -/
inductive Dev where
  | usb
  | rs485
deriving DecidableEq, Repr

/-- The global state: the two pre-allocated `fdUSART` structs (`fd_usb`,
`fd_rs485`), the global `errno`, and the transcript of bytes written to the
USARTC0 data register (every modelled call site of `_write_char_USART`
targets `fd_usb`, whose USART is C0). -/
structure Sys where
  usb : FdUSART
  rs485 : FdUSART
  errno : Errno
  out : List Int

def Sys.dev (s : Sys) : Dev → FdUSART
  | .usb => s.usb
  | .rs485 => s.rs485

def Sys.setDev (s : Sys) (d : Dev) (f : FdUSART) : Sys :=
  match d with
  | .usb => { s with usb := f }
  | .rs485 => { s with rs485 := f }

/- ===================== low-level char IO ===================== -/

/-- `_write_char_USART`: spins until the transmit data register is empty
(the busy-wait always completes and is not part of the state), writes the
char to the data register, and returns the char. -/
def write_char_USART (c : Int) (s : Sys) : Int × Sys :=
  (c, { s with out := s.out ++ [c] })

/-- `_echo_to_console`: writes the char to the console device `fd_usb`. -/
def echo_to_console (c : Int) (s : Sys) : Sys :=
  (write_char_USART c s).2

/-- The head advance computed by the receive interrupt: an 8-bit pre-decrement
followed by the wrap test against index 0 (`if ((--head) == 0) head = USART_RX_BUFSIZE-1`). -/
def isrNextHead (h : Nat) : Nat :=
  let h1 := if h = 0 then 255 else h - 1
  if h1 = 0 then USART_RX_BUFSIZE - 1 else h1

/-- Body shared by `ISR(USB_RX_ISR_vect)` and `ISR(USARTC1_RXC_vect)`: the two
interrupt handlers in the source are textually identical up to the struct they
act on (`fd_usb` resp. `fd_rs485`).  `c` is the byte read from the USART data
register.  Normal path: store at the decremented-and-wrapped head.  Full path
(new head equals tail): undo the head move with an increment-and-wrap and drop
the byte. -/
def isrBody (f : FdUSART) (c : Int) : FdUSART :=
  let h2 := isrNextHead f.rx_buf_head
  if h2 ≠ f.rx_buf_tail then
    { f with rx_buf_head := h2,
             rx_buf := fun j => if j = h2 then c else f.rx_buf j }
  else
    let h3 := (h2 + 1) % 256
    { f with rx_buf_head := if USART_RX_BUFSIZE - 1 < h3 then 1 else h3 }

/-- `ISR(USB_RX_ISR_vect)` acting on `fd_usb`. -/
def usb_rx_isr (c : Int) (s : Sys) : Sys :=
  { s with usb := isrBody s.usb c }

/-- `ISR(USARTC1_RXC_vect)` acting on `fd_rs485`. -/
def rs485_rx_isr (c : Int) (s : Sys) : Sys :=
  { s with rs485 := isrBody s.rs485 c }

/-- `_read_char_USART`: the lowest-level char reader.  On an empty buffer it
returns -1 with `EAGAIN` when blocking is disabled, or parks the processor in
`sleep_mode()` waiting for an interrupt; in this sequential model no interrupt
can arrive during a foreground call, so the blocking branch is the `none`
result.  Otherwise the tail is pre-decremented (8-bit), and on reaching 0 the
wrap assignment is applied — to `fd_usb.rx_buf_tail`, exactly as in the source
(line 625 names `fd_usb` rather than `f`).  The char at the resulting tail of
`f` is read, echoed to the console when echo is enabled, and returned. -/
def read_char_USART (d : Dev) (s : Sys) : Option (Int × Sys) :=
  let f := s.dev d
  if f.rx_buf_head = f.rx_buf_tail then
    if BLOCKING_ENABLED f.flags = 0 then
      some (-1, { s with errno := .EAGAIN })
    else
      none
  else
    let t1 := if f.rx_buf_tail = 0 then 255 else f.rx_buf_tail - 1
    let s1 := s.setDev d { f with rx_buf_tail := t1 }
    let s2 := if t1 = 0 then
        { s1 with usb := { s1.usb with rx_buf_tail := USART_RX_BUFSIZE - 1 } }
      else s1
    let f2 := s2.dev d
    let c := f2.rx_buf f2.rx_buf_tail
    let s3 := if ECHO_ENABLED f2.flags ≠ 0 then echo_to_console c s2 else s2
    some (c, s3)

/- ===================== USB read engine ===================== -/

/-- Result of a bulk read: `done ret buf s` is a return with value `ret`,
the bytes stored into the caller buffer (in order, terminator included), and
the final state; `sleeps buf s` is the foreground parked in `sleep_mode()`
with no interrupt to wake it; `fuelOut` is the totality device for the
unbounded `NO_LIMIT` loops and is not reached from the states used below. -/
inductive RWRes where
  | done (ret : Int) (buf : List Int) (s : Sys)
  | sleeps (buf : List Int) (s : Sys)
  | fuelOut

/-- `SIZE_MODE` loop of `_read_usb` (source lines 753-761): store each char
into the caller buffer before testing it against -1; abort with -1 on the
sentinel, return the count when the countdown hits zero.  The countdown is
the structural recursion; the loop is only entered with a positive size, so
the zero pattern is not reached. -/
def size_read_loop : Nat → List Int → Sys → RWRes
  | 0, _, _ => .fuelOut
  | k + 1, acc, s =>
    match read_char_USART .usb s with
    | none => .sleeps acc s
    | some (c, s1) =>
      let acc1 := acc ++ [c]
      if c = -1 then .done (-1) acc1 s1
      else if k = 0 then .done (acc1.length : Int) acc1 s1
      else size_read_loop k acc1 s1

/-- `LINE_MODE` loop of `_read_usb` (source lines 762-782): abort on the -1
sentinel before storing; store the char; on limit exhaustion NUL-terminate,
set `EMSGSIZE` and return -1; on a delimiter (`\r`, `\n`, `;`)
NUL-terminate and return the count; on a NUL return the count.  The first
argument is fuel (see `RWRes.fuelOut`). -/
def line_read_loop : Nat → Int → List Int → Sys → RWRes
  | 0, _, _, _ => .fuelOut
  | fcnt + 1, size, acc, s =>
    match read_char_USART .usb s with
    | none => .sleeps acc s
    | some (c, s1) =>
      if c = -1 then .done (-1) acc s1
      else
        let acc1 := acc ++ [c]
        if size ≠ NO_LIMIT ∧ size - 1 = 0 then
          .done (-1) (acc1 ++ [NUL]) { s1 with errno := .EMSGSIZE }
        else
          let size1 := if size ≠ NO_LIMIT then size - 1 else size
          if c = 13 ∨ c = 10 ∨ c = 59 then .done (acc1.length : Int) (acc1 ++ [NUL]) s1
          else if c = NUL then .done (acc1.length : Int) acc1 s1
          else line_read_loop fcnt size1 acc1 s1

/-- `STR_MODE` loop of `_read_usb` (source lines 783-799): like the line loop
but terminating only on NUL, and setting `EFBIG` (source line 792) when the
limit is exhausted. -/
def str_read_loop : Nat → Int → List Int → Sys → RWRes
  | 0, _, _, _ => .fuelOut
  | fcnt + 1, size, acc, s =>
    match read_char_USART .usb s with
    | none => .sleeps acc s
    | some (c, s1) =>
      if c = -1 then .done (-1) acc s1
      else
        let acc1 := acc ++ [c]
        if size ≠ NO_LIMIT ∧ size - 1 = 0 then
          .done (-1) (acc1 ++ [NUL]) { s1 with errno := .EFBIG }
        else
          let size1 := if size ≠ NO_LIMIT then size - 1 else size
          if c = NUL then .done (acc1.length : Int) acc1 s1
          else str_read_loop fcnt size1 acc1 s1

/-- `_read_usb`: the size and mode checks (source lines 742-750) followed by
the dispatch to the mode loops.  For the negative modes the working size is
reset to `rx_size_max`.  The fuel passed to the line/str loops exceeds any
possible iteration count from a valid state (each iteration either returns or
consumes one of at most `USART_RX_BUFSIZE` pending bytes, or decrements the
positive limit). -/
def read_usb (s : Sys) (size : Int) : RWRes :=
  if size = 0 then .done 0 [] s
  else if s.usb.rx_size_max < size then .done (-1) [] { s with errno := .EFBIG }
  else if size < STR_MODE then .done (-1) [] { s with errno := .EINVAL }
  else if 0 < size then size_read_loop size.toNat [] s
  else
    let lim := s.usb.rx_size_max
    let fuel := lim.toNat + USART_RX_BUFSIZE + 2
    if size = LINE_MODE then line_read_loop fuel lim [] s
    else if size = STR_MODE then str_read_loop fuel lim [] s
    else .done (-1) [] { s with errno := .EWTF }

/- ===================== USB write engine ===================== -/

/-- Result of a bulk write; writes never sleep (transmission is a busy-wait
that always completes), so only `done` and the fuel artifact occur. -/
inductive WRes where
  | done (ret : Int) (s : Sys)
  | fuelOut

/-- `SIZE_MODE` loop of `_write_usb` (source lines 829-837): decrement the
countdown first and return the index when it reaches zero, otherwise write
the next source char and abort with -1 if the written char compares equal to
-1.  Entered only with a positive size, so the zero pattern is not reached. -/
def write_size_loop : Nat → Nat → (Nat → Int) → Sys → WRes
  | 0, _, _, _ => .fuelOut
  | k + 1, i, src, s =>
    if k = 0 then .done (i : Int) s
    else
      let c := src i
      let s1 := (write_char_USART c s).2
      if c = -1 then .done (-1) s1
      else write_size_loop k (i + 1) src s1

/-- `LINE_MODE` loop of `_write_usb` (source lines 838-856): on limit
exhaustion set `EMSGSIZE` and return -1; fetch the next source char; on NUL
return the advanced index without writing; write the char, abort on the -1
sentinel; on a delimiter return the advanced index. -/
def write_line_loop : Nat → Int → Nat → (Nat → Int) → Sys → WRes
  | 0, _, _, _, _ => .fuelOut
  | fcnt + 1, size, i, src, s =>
    if size ≠ NO_LIMIT ∧ size - 1 = 0 then .done (-1) { s with errno := .EMSGSIZE }
    else
      let size1 := if size ≠ NO_LIMIT then size - 1 else size
      let c := src i
      if c = NUL then .done ((i + 1 : Nat) : Int) s
      else
        let s1 := (write_char_USART c s).2
        if c = -1 then .done (-1) s1
        else if c = 13 ∨ c = 10 ∨ c = 59 then .done ((i + 1 : Nat) : Int) s1
        else write_line_loop fcnt size1 (i + 1) src s1

/-- `STR_MODE` loop of `_write_usb` (source lines 857-872): like the line
loop without the delimiter return. -/
def write_str_loop : Nat → Int → Nat → (Nat → Int) → Sys → WRes
  | 0, _, _, _, _ => .fuelOut
  | fcnt + 1, size, i, src, s =>
    if size ≠ NO_LIMIT ∧ size - 1 = 0 then .done (-1) { s with errno := .EMSGSIZE }
    else
      let size1 := if size ≠ NO_LIMIT then size - 1 else size
      let c := src i
      if c = NUL then .done ((i + 1 : Nat) : Int) s
      else
        let s1 := (write_char_USART c s).2
        if c = -1 then .done (-1) s1
        else write_str_loop fcnt size1 (i + 1) src s1

/-- `PSTR_MODE` loop of `_write_usb` (source lines 873-889): identical to the
string loop except that the source char is fetched from program memory
(`pgm_read_byte`), modelled by the same source map. -/
def write_pstr_loop : Nat → Int → Nat → (Nat → Int) → Sys → WRes
  | 0, _, _, _, _ => .fuelOut
  | fcnt + 1, size, i, src, s =>
    if size ≠ NO_LIMIT ∧ size - 1 = 0 then .done (-1) { s with errno := .EMSGSIZE }
    else
      let size1 := if size ≠ NO_LIMIT then size - 1 else size
      let c := src i
      if c = NUL then .done ((i + 1 : Nat) : Int) s
      else
        let s1 := (write_char_USART c s).2
        if c = -1 then .done (-1) s1
        else write_pstr_loop fcnt size1 (i + 1) src s1

/-- `_write_usb`: the size and mode checks (source lines 818-826) followed by
the mode dispatch.  Note that the source tests the request against
`rx_size_max` (line 819) and resets the working size of the negative modes to
`rx_size_max` (line 825).  `fuel` bounds the NUL scan of the `NO_LIMIT`
write loops; no property below depends on it. -/
def write_usb (s : Sys) (src : Nat → Int) (size : Int) (fuel : Nat) : WRes :=
  if size = 0 then .done 0 s
  else if s.usb.rx_size_max < size then .done (-1) { s with errno := .EFBIG }
  else if size < PSTR_MODE then .done (-1) { s with errno := .EINVAL }
  else if 0 < size then write_size_loop size.toNat 0 src s
  else
    let lim := s.usb.rx_size_max
    if size = LINE_MODE then write_line_loop (lim.toNat + fuel + 2) lim 0 src s
    else if size = STR_MODE then write_str_loop (lim.toNat + fuel + 2) lim 0 src s
    else if size = PSTR_MODE then write_pstr_loop (lim.toNat + fuel + 2) lim 0 src s
    else .done (-1) { s with errno := .EWTF }

/- ===================== open path ===================== -/

/-- The `fdes` device-to-file-descriptor table (source lines 185-200). -/
def fdes : List Nat :=
  [0,
   0, 0, 0, 0, 0, 0, 0, 0,
   0, 0, 0, 0, 0, 0, 0, 0,
   1, 2, 0, 0, 0, 0, 0, 0,
   0, 0, 0, 0,
   0, 0,
   0,
   0,
   0, 0,
   0, 0,
   0, 0, 0, 0, 0,
   0,
   1, 2, 0, 0,
   0,
   0]

/-- `_open_USART`: looks up the file descriptor, resets the buffer indices to
1 (index 0 is never used), installs the default limits, rejects a control
word carrying both `IO_RDONLY` and `IO_WRONLY` with `EINVAL`, applies the
flag defaults and overrides, and resolves the baud index.  The second flag
test reproduces source line 495 verbatim: `control && IO_RDONLY` is the C
logical AND of the whole control word with the nonzero constant `IO_RDONLY`.
Hardware setup (baud registers, TX/RX enables, port direction bits) has no
bearing on the modelled state.  A zero file descriptor would dereference a
NULL pointer in the source and is returned as a plain -1 here; it is not
reachable through `xio_open`. -/
def open_USART (dev : Nat) (control : Nat) (s : Sys) : Int × Sys :=
  let fd := fdes.getD dev 0
  if fd = 0 then (-1, s)
  else
    let d : Dev := if fd = 1 then .usb else .rs485
    let f := s.dev d
    let f := { f with fd := fd,
                      rx_buf_head := 1, rx_buf_tail := 1,
                      tx_buf_head := 1, tx_buf_tail := 1,
                      rx_size_max := READ_BUFFER_SIZE - 1,
                      tx_size_max := NO_LIMIT }
    if control &&& (IO_RDONLY ||| IO_WRONLY) = IO_RDONLY ||| IO_WRONLY then
      (-1, { s.setDev d f with errno := .EINVAL })
    else
      let flags := IO_FLAG_DEFAULT_gm
      let flags :=
        if control &&& IO_RDONLY ≠ 0 then flags &&& (255 - IO_FLAG_WR_bm)
        else if control ≠ 0 ∧ IO_RDONLY ≠ 0 then flags &&& (255 - IO_FLAG_RD_bm)
        else flags
      let flags := if control &&& IO_NOECHO ≠ 0 then flags &&& (255 - IO_FLAG_ECHO_CHAR_bm) else flags
      let flags := if control &&& IO_RDNONBLOCK ≠ 0 then flags &&& (255 - IO_FLAG_RD_BLOCK_bm) else flags
      let baud := if control &&& IO_BAUD_gm = IO_BAUD_UNSPECIFIED then IO_BAUD_DEFAULT
                  else control &&& IO_BAUD_gm
      let f := { f with flags := flags, baud := baud }
      ((fd : Int), s.setDev d f)

/-- `_open_usb`: subclasses the USARTC0 open; the extra RTS/CTS port setup is
hardware-only. -/
def open_usb (control : Nat) (s : Sys) : Int × Sys :=
  match open_USART DEV_USARTC0 control s with
  | (r, s1) => if r = -1 then (-1, s1) else (r, s1)

/-- `xio_open`: the device dispatch (source lines 285-296); the raw USARTs
C0 and C1 are rejected with `ENODEV`, `DEV_USB` routes to the USB open, and
everything else is `ENODEV`. -/
def xio_open (dev : Nat) (control : Nat) (s : Sys) : Int × Sys :=
  if dev = DEV_USARTC0 then (-1, { s with errno := .ENODEV })
  else if dev = DEV_USARTC1 then (-1, { s with errno := .ENODEV })
  else if dev = DEV_USB then open_usb control s
  else (-1, { s with errno := .ENODEV })

/- ===================== remaining dispatchers ===================== -/

/-- `xio_close`: returns 0 unconditionally (source lines 337-340). -/
def xio_close (fd : Nat) (s : Sys) : Int × Sys :=
  (0, s)

/-- `xio_read`: routes `FD_USB` to `_read_usb`, everything else fails with
`EBADF` (source lines 364-375). -/
def xio_read (fd : Nat) (size : Int) (s : Sys) : RWRes :=
  if fd = FD_USB then read_usb s size
  else .done (-1) [] { s with errno := .EBADF }

/-- `xio_write`: routes `FD_USB` to `_write_usb`, everything else fails with
`EBADF` (source lines 402-410). -/
def xio_write (fd : Nat) (src : Nat → Int) (size : Int) (fuel : Nat) (s : Sys) : WRes :=
  if fd = FD_USB then write_usb s src size fuel
  else .done (-1) { s with errno := .EBADF }

/-- `xio_getc`: routes `FD_USB` to `_read_char_USART` on `fd_usb`; other
descriptors fail with `EBADF` and `ERR_EOF` (source lines 422-431). -/
def xio_getc (fd : Nat) (s : Sys) : Option (Int × Sys) :=
  if fd = FD_USB then read_char_USART .usb s
  else some (ERR_EOF, { s with errno := .EBADF })

/-- `xio_putc`: routes `FD_USB` to `_write_char_USART`; other descriptors
fail with `EBADF` and `ERR_EOF` (source lines 433-442). -/
def xio_putc (fd : Nat) (c : Int) (s : Sys) : Int × Sys :=
  if fd = FD_USB then write_char_USART c s
  else (ERR_EOF, { s with errno := .EBADF })

/- ===================== abstraction layer for the ring buffer ===================== -/

/-- Mathematical form of the decrement-and-wrap step on the index range
`[1, USART_RX_BUFSIZE-1]`. -/
def advanceIdx (x : Nat) : Nat :=
  if x = 1 then USART_RX_BUFSIZE - 1 else x - 1

/-- Number of unread bytes held by a ring buffer with valid indices. -/
def ringPending (f : FdUSART) : Nat :=
  (f.rx_buf_tail + 31 - f.rx_buf_head) % 31

/-- Buffer position holding the `j`-th oldest unread byte (`j ≥ 1`): `j`
decrement-and-wrap steps below the tail. -/
def ringPos (t j : Nat) : Nat :=
  (t - 1 + 31 - j) % 31 + 1

/-- Abstract FIFO contents of a ring buffer, oldest byte first. -/
def ringList (f : FdUSART) : List Int :=
  (List.range (ringPending f)).map fun k => f.rx_buf (ringPos f.rx_buf_tail (k + 1))

/-- Valid index ranges: head and tail in `[1, USART_RX_BUFSIZE-1]`, index 0
never used. -/
def ValidRing (f : FdUSART) : Prop :=
  1 ≤ f.rx_buf_head ∧ f.rx_buf_head ≤ 31 ∧ 1 ≤ f.rx_buf_tail ∧ f.rx_buf_tail ≤ 31

/-- Events of a run against the USB receive ring buffer: an interrupt
delivering byte `c`, or a foreground single-character read. -/
inductive Op where
  | push (c : Int)
  | pop

/-- Bytes delivered by the interrupt during a run, in arrival order. -/
def pushedOf : List Op → List Int
  | [] => []
  | .push c :: ops => c :: pushedOf ops
  | .pop :: ops => pushedOf ops

/-- Run a sequence of events from a state, collecting the bytes obtained by
the foreground pops.  A pop on an empty buffer returns the would-block error
(or parks, when blocking is enabled) and yields no byte. -/
def runAux : List Op → Sys → List Int → Sys × List Int
  | [], s, acc => (s, acc)
  | .push c :: ops, s, acc => runAux ops (usb_rx_isr c s) acc
  | .pop :: ops, s, acc =>
    match read_char_USART .usb s with
    | none => runAux ops s acc
    | some (c, s1) =>
      if s.usb.rx_buf_head = s.usb.rx_buf_tail then runAux ops s1 acc
      else runAux ops s1 (acc ++ [c])

/- ===================== concrete states ===================== -/

/-- A freshly opened control block: indices at 1, zeroed buffer, default read
limit, no echo and non-blocking reads (flag word 0). -/
def fdInit : FdUSART :=
  { fd := 1, baud := 5, flags := 0,
    rx_buf_tail := 1, rx_buf_head := 1,
    tx_buf_tail := 1, tx_buf_head := 1,
    rx_buf := fun _ => 0,
    rx_size_max := 31, tx_size_max := 0 }

/-- A system state with both devices freshly initialized. -/
def sysInit : Sys :=
  { usb := fdInit, rs485 := { fdInit with fd := 2 }, errno := .ok, out := [] }

/-- State for the write-limit check: receive limit 5, transmit limit 100. -/
def sysC6 : Sys :=
  { sysInit with usb := { sysInit.usb with rx_size_max := 5, tx_size_max := 100 } }

/-- State for the string-mode limit check: four pending bytes 65 66 67 68
(none of them NUL), read limit 3. -/
def sysC7 : Sys :=
  { sysInit with usb :=
    { sysInit.usb with
      rx_buf_head := 28, rx_buf_tail := 1, rx_size_max := 3,
      rx_buf := fun j =>
        if j = 31 then 65 else if j = 30 then 66
        else if j = 29 then 67 else if j = 28 then 68 else 0 } }

/-- A full ring for the drop-on-full check: head 1, tail 31, so one more
head advance would collide with the tail. -/
def fdFull : FdUSART :=
  { fdInit with rx_buf_head := 1, rx_buf_tail := 31, rx_buf := fun _ => 7 }

/-- Event sequence for the FIFO witness: two pushes interleaved with pops,
plus a pop on the drained buffer. -/
def opsW : List Op :=
  [.push 65, .pop, .push 66, .pop, .pop]

/- ===================== helper lemmas ===================== -/

lemma isrNextHead_eq_advanceIdx {h : Nat} (h1 : 1 ≤ h) : isrNextHead h = advanceIdx h := by
  simp only [isrNextHead, advanceIdx, USART_RX_BUFSIZE]
  split_ifs <;> omega

lemma isrBody_full_frame (f : FdUSART) (c : Int)
    (hh1 : 1 ≤ f.rx_buf_head) (hh2 : f.rx_buf_head ≤ USART_RX_BUFSIZE - 1)
    (hfull : isrNextHead f.rx_buf_head = f.rx_buf_tail) :
    isrBody f c = f := by
  have hhead : (if USART_RX_BUFSIZE - 1 < (f.rx_buf_tail + 1) % 256 then 1
      else (f.rx_buf_tail + 1) % 256) = f.rx_buf_head := by
    simp only [isrNextHead, USART_RX_BUFSIZE] at hfull hh2 ⊢
    split_ifs at hfull ⊢ <;> omega
  simp only [isrBody, hfull, ne_eq, not_true_eq_false, if_false]
  rw [hhead]

/- ===================== claim theorems ===================== -/

/-- C1: the claim that an exact-count write within the configured limit
transfers exactly `request` bytes and returns `request` fails on the code:
the `SIZE_MODE` write loop decrements the countdown before writing, so a
request of 1 writes nothing and returns 0, and a request of 3 writes two
bytes and returns 2. -/
theorem write_size_mode_short_by_one :
    write_usb sysInit (fun _ => 65) 1 0 = .done 0 sysInit ∧
    write_usb sysInit (fun _ => 65) 3 0 = .done 2 { sysInit with out := [65, 65] } := by
  constructor <;> rfl

/-- C4: the claim that a pop on the RS-485 device leaves the RS-485 tail
index in `[1, USART_RX_BUFSIZE-1]` fails on the code: from a valid RS-485
state (head 31 after one push, tail 1), the pop decrements the RS-485 tail
to 0 and the wrap assignment of source line 625 goes to `fd_usb.rx_buf_tail`
instead, leaving the RS-485 tail at the never-used index 0 and clobbering
the USB tail (1 before, 31 after). -/
theorem rs485_pop_tail_leaves_range :
    (read_char_USART .rs485 (rs485_rx_isr 65 sysInit)).map
      (fun p => p.2.rs485.rx_buf_tail) = some 0 ∧
    (read_char_USART .rs485 (rs485_rx_isr 65 sysInit)).map
      (fun p => p.2.usb.rx_buf_tail) = some 31 ∧
    sysInit.rs485.rx_buf_tail = 1 ∧ sysInit.usb.rx_buf_tail = 1 := by
  refine ⟨rfl, rfl, rfl, rfl⟩

/-- C5: the claim that an open whose control word sets neither the read-only
nor the write-only flag keeps both the read and the write enable fails on
the code: source line 495 tests `control && IO_RDONLY` (C logical AND), so
any nonzero control word without `IO_RDONLY` — here the bare baud selector
5 — clears the read-enable bit.  The open still succeeds and returns
descriptor 1. -/
theorem open_baud_only_clears_read_flag :
    5 &&& IO_RDONLY = 0 ∧ 5 &&& IO_WRONLY = 0 ∧
    (xio_open DEV_USB 5 sysInit).1 = 1 ∧
    (xio_open DEV_USB 5 sysInit).2.usb.flags &&& IO_FLAG_RD_bm = 0 ∧
    (xio_open DEV_USB 5 sysInit).2.usb.flags &&& IO_FLAG_WR_bm ≠ 0 := by
  refine ⟨rfl, rfl, rfl, rfl, by decide⟩

/-- C6: the claim that an exact-count write fails with the too-big error
exactly when the request exceeds the transmit limit fails on the code:
`_write_usb` tests the request against `rx_size_max` (source line 819), so a
request of 10 on a device with receive limit 5 and transmit limit 100 fails
with `EFBIG` and transfers nothing even though it is within the transmit
limit. -/
theorem write_checks_receive_limit :
    write_usb sysC6 (fun _ => 65) 10 0 = .done (-1) { sysC6 with errno := .EFBIG } ∧
    (10 : Int) ≤ sysC6.usb.tx_size_max ∧ sysC6.usb.rx_size_max < 10 := by
  refine ⟨rfl, by decide, by decide⟩

/-- C7: the claim that a string-mode read hitting the configured limit fails
with the message-too-big error fails on the code in the error code: from a
state with read limit 3 and pending bytes 65 66 67 68 (no NUL), the
string-mode read stores the three bytes plus a NUL terminator and returns
-1, but sets `EFBIG` (source line 792) where the line-mode loop and the
documentation use `EMSGSIZE`. -/
theorem str_mode_limit_sets_efbig :
    read_usb sysC7 (-2) =
      .done (-1) [65, 66, 67, 0]
        { sysC7 with errno := .EFBIG,
                     usb := { sysC7.usb with rx_buf_tail := 29 } } := by
  rfl

/-- C10: `xio_close` returns 0 for every handle and leaves the whole state,
in particular the process-wide error value, untouched. -/
theorem xio_close_always_succeeds (fd : Nat) (s : Sys) :
    xio_close fd s = (0, s) := by
  rfl

/-- C3: pushing a byte into a full receive ring buffer — one where advancing
the head one step would make it equal the tail — drops the byte and leaves
the control block unchanged: same stored bytes, same head, same tail.  Both
receive interrupts execute this body. -/
theorem isr_push_full_frame (f : FdUSART) (c : Int)
    (hh1 : 1 ≤ f.rx_buf_head) (hh2 : f.rx_buf_head ≤ USART_RX_BUFSIZE - 1)
    (hfull : isrNextHead f.rx_buf_head = f.rx_buf_tail) :
    isrBody f c = f :=
  isrBody_full_frame f c hh1 hh2 hfull

/-- Witness for C3 at a concrete full buffer: head 1, tail 31. -/
theorem isr_push_full_frame_witness :
    (1 ≤ fdFull.rx_buf_head ∧ fdFull.rx_buf_head ≤ USART_RX_BUFSIZE - 1 ∧
      isrNextHead fdFull.rx_buf_head = fdFull.rx_buf_tail) ∧
    isrBody fdFull 99 = fdFull :=
  ⟨⟨by decide, by decide, by decide⟩,
   isr_push_full_frame fdFull 99 (by decide) (by decide) (by decide)⟩

lemma read_char_empty_nonblocking (s : Sys)
    (hempty : s.usb.rx_buf_head = s.usb.rx_buf_tail)
    (hnb : BLOCKING_ENABLED s.usb.flags = 0) :
    read_char_USART .usb s = some (-1, { s with errno := .EAGAIN }) := by
  simp only [read_char_USART, Sys.dev, hempty, if_true, hnb, if_pos rfl]

lemma size_read_loop_abort :
    ∀ (k : Nat) (acc : List Int) (s : Sys) (buf : List Int) (s1 : Sys),
      size_read_loop k acc s = .done (-1) buf s1 → buf.getLast? = some (-1) := by
  intro k
  induction k with
  | zero =>
    intro acc s buf s1 h
    simp only [size_read_loop] at h
    exact RWRes.noConfusion h
  | succ k ih =>
    intro acc s buf s1 h
    cases hrc : read_char_USART .usb s with
    | none =>
      simp only [size_read_loop, hrc] at h
      exact RWRes.noConfusion h
    | some p =>
      obtain ⟨c, s2⟩ := p
      simp only [size_read_loop, hrc] at h
      by_cases hc : c = -1
      · rw [if_pos hc] at h
        cases h
        subst hc
        exact List.getLast?_concat _
      · rw [if_neg hc] at h
        by_cases hk : k = 0
        · rw [if_pos hk] at h
          injection h with h1 h2 h3
          omega
        · rw [if_neg hk] at h
          exact ih _ _ _ _ h

/-- C8: on a device with blocking reads disabled, a single-character read
and every bulk read mode return -1 with the would-block error `EAGAIN`
immediately when the receive buffer is empty; the result is a plain return
(`some`/`done`), never the `sleep_mode()` outcome (`none`/`sleeps`).  In
exact-count mode the -1 sentinel has additionally been stored in the caller
buffer (see C9). -/
theorem nonblocking_empty_read_would_block (s : Sys)
    (hempty : s.usb.rx_buf_head = s.usb.rx_buf_tail)
    (hnb : BLOCKING_ENABLED s.usb.flags = 0)
    (hmax : 0 ≤ s.usb.rx_size_max) :
    xio_getc FD_USB s = some (-1, { s with errno := .EAGAIN }) ∧
    (∀ n : Int, 0 < n → n ≤ s.usb.rx_size_max →
      read_usb s n = .done (-1) [-1] { s with errno := .EAGAIN }) ∧
    read_usb s (-1) = .done (-1) [] { s with errno := .EAGAIN } ∧
    read_usb s (-2) = .done (-1) [] { s with errno := .EAGAIN } := by
  have hgetc := read_char_empty_nonblocking s hempty hnb
  refine ⟨?_, ?_, ?_, ?_⟩
  · simp only [xio_getc, if_pos rfl]
    exact hgetc
  · intro n hn hnm
    obtain ⟨k, hk⟩ : ∃ k, n.toNat = k + 1 := ⟨n.toNat - 1, by omega⟩
    simp only [read_usb, STR_MODE]
    rw [if_neg (by omega), if_neg (by omega), if_neg (by omega), if_pos (by omega), hk]
    simp [size_read_loop, hgetc]
  · have hm : s.usb.rx_size_max.toNat + USART_RX_BUFSIZE + 2 =
        (s.usb.rx_size_max.toNat + USART_RX_BUFSIZE + 1) + 1 := by omega
    simp only [read_usb, STR_MODE, LINE_MODE]
    rw [if_neg (by omega), if_neg (by omega), if_neg (by omega), if_neg (by omega)]
    simp only [ite_true, reduceIte, hm]
    simp [line_read_loop, hgetc]
  · have hm : s.usb.rx_size_max.toNat + USART_RX_BUFSIZE + 2 =
        (s.usb.rx_size_max.toNat + USART_RX_BUFSIZE + 1) + 1 := by omega
    simp only [read_usb, STR_MODE, LINE_MODE]
    rw [if_neg (by omega), if_neg (by omega), if_neg (by omega), if_neg (by omega)]
    simp only [ite_true, reduceIte, hm]
    simp [str_read_loop, hgetc]

/-- Witness for C8 on the concrete freshly-opened non-blocking state. -/
theorem nonblocking_empty_read_would_block_witness :
    (sysInit.usb.rx_buf_head = sysInit.usb.rx_buf_tail ∧
      BLOCKING_ENABLED sysInit.usb.flags = 0 ∧ (0 : Int) ≤ sysInit.usb.rx_size_max) ∧
    xio_getc FD_USB sysInit = some (-1, { sysInit with errno := .EAGAIN }) ∧
    read_usb sysInit 2 = .done (-1) [-1] { sysInit with errno := .EAGAIN } ∧
    read_usb sysInit (-1) = .done (-1) [] { sysInit with errno := .EAGAIN } ∧
    read_usb sysInit (-2) = .done (-1) [] { sysInit with errno := .EAGAIN } :=
  ⟨⟨rfl, rfl, by decide⟩,
   (nonblocking_empty_read_would_block sysInit rfl rfl (by decide)).1,
   (nonblocking_empty_read_would_block sysInit rfl rfl (by decide)).2.1 2
     (by decide) (by decide),
   (nonblocking_empty_read_would_block sysInit rfl rfl (by decide)).2.2.1,
   (nonblocking_empty_read_would_block sysInit rfl rfl (by decide)).2.2.2⟩

/-- C9: whenever an exact-count read returns -1 from its transfer loop — in
particular when the single-byte reader reports the would-block error — the
-1 sentinel produced by the reader has already been stored into the caller
buffer at the current output position (the loop stores before testing), so
the buffer ends with the sentinel and a failing exact-count read is not
atomic with respect to the destination. -/
theorem size_mode_abort_stores_sentinel (s : Sys) (n : Int) (buf : List Int) (s1 : Sys)
    (hn : 0 < n) (hnm : n ≤ s.usb.rx_size_max)
    (h : read_usb s n = .done (-1) buf s1) :
    buf.getLast? = some (-1) := by
  simp only [read_usb, STR_MODE] at h
  rw [if_neg (by omega), if_neg (by omega), if_neg (by omega), if_pos (by omega)] at h
  exact size_read_loop_abort _ _ _ _ _ h

/-- Witness for C9: a two-byte exact-count read on an empty non-blocking
device aborts at the first byte with the sentinel stored at position 0. -/
theorem size_mode_abort_stores_sentinel_witness :
    ((0 : Int) < 2 ∧ (2 : Int) ≤ sysInit.usb.rx_size_max ∧
      read_usb sysInit 2 = .done (-1) [-1] { sysInit with errno := .EAGAIN }) ∧
    ([(-1 : Int)]).getLast? = some (-1) :=
  ⟨⟨by decide, by decide, rfl⟩,
   size_mode_abort_stores_sentinel sysInit 2 [-1] { sysInit with errno := .EAGAIN }
     (by decide) (by decide) rfl⟩

lemma ringPending_lt (f : FdUSART) : ringPending f < 31 := by
  simp only [ringPending]
  omega

lemma ringList_length (f : FdUSART) : (ringList f).length = ringPending f := by
  simp [ringList]

lemma ringPos_one {t : Nat} (h1 : 1 ≤ t) (h2 : t ≤ 31) : ringPos t 1 = advanceIdx t := by
  simp only [ringPos, advanceIdx, USART_RX_BUFSIZE]
  split_ifs <;> omega

lemma ringPos_shift {t j : Nat} (h1 : 1 ≤ t) (h2 : t ≤ 31) (hj1 : 1 ≤ j) (hj2 : j ≤ 30) :
    ringPos (advanceIdx t) j = ringPos t (j + 1) := by
  simp only [ringPos, advanceIdx, USART_RX_BUFSIZE]
  split_ifs <;> omega

lemma ringPos_ne_newhead {t h j : Nat} (ht1 : 1 ≤ t) (ht2 : t ≤ 31)
    (hh1 : 1 ≤ h) (hh2 : h ≤ 31) (hj1 : 1 ≤ j)
    (hjn : j ≤ (t + 31 - h) % 31) (hlt : (t + 31 - h) % 31 < 30) :
    ringPos t j ≠ advanceIdx h := by
  simp only [ringPos, advanceIdx, USART_RX_BUFSIZE]
  split_ifs <;> omega

lemma ringPos_newhead {t h : Nat} (ht1 : 1 ≤ t) (ht2 : t ≤ 31)
    (hh1 : 1 ≤ h) (hh2 : h ≤ 31) (hlt : (t + 31 - h) % 31 < 30) :
    ringPos t ((t + 31 - h) % 31 + 1) = advanceIdx h := by
  simp only [ringPos, advanceIdx, USART_RX_BUFSIZE]
  split_ifs <;> omega

lemma isrBody_push (f : FdUSART) (c : Int) (hv : ValidRing f) (hn : ringPending f < 30) :
    isrBody f c = { f with rx_buf_head := advanceIdx f.rx_buf_head,
                           rx_buf := fun j => if j = advanceIdx f.rx_buf_head then c
                                              else f.rx_buf j } := by
  obtain ⟨hh1, hh2, ht1, ht2⟩ := hv
  have hne : advanceIdx f.rx_buf_head ≠ f.rx_buf_tail := by
    simp only [advanceIdx, ringPending, USART_RX_BUFSIZE] at hn ⊢
    split_ifs <;> omega
  simp only [isrBody, isrNextHead_eq_advanceIdx hh1]
  rw [if_pos hne]

lemma ringPending_push (f : FdUSART) (c : Int) (hv : ValidRing f) (hn : ringPending f < 30) :
    ringPending (isrBody f c) = ringPending f + 1 := by
  rw [isrBody_push f c hv hn]
  obtain ⟨hh1, hh2, ht1, ht2⟩ := hv
  simp only [ringPending, advanceIdx, USART_RX_BUFSIZE] at hn ⊢
  split_ifs <;> omega

lemma validRing_push (f : FdUSART) (c : Int) (hv : ValidRing f) (hn : ringPending f < 30) :
    ValidRing (isrBody f c) := by
  rw [isrBody_push f c hv hn]
  obtain ⟨hh1, hh2, ht1, ht2⟩ := hv
  refine ⟨?_, ?_, ht1, ht2⟩ <;>
    · simp only [advanceIdx, USART_RX_BUFSIZE]
      split_ifs <;> omega

lemma ringList_push (f : FdUSART) (c : Int) (hv : ValidRing f) (hn : ringPending f < 30) :
    ringList (isrBody f c) = ringList f ++ [c] := by
  have hp : ringPending (isrBody f c) = ringPending f + 1 := ringPending_push f c hv hn
  rw [isrBody_push f c hv hn] at hp ⊢
  obtain ⟨hh1, hh2, ht1, ht2⟩ := hv
  have hpend : ringPending f = (f.rx_buf_tail + 31 - f.rx_buf_head) % 31 := rfl
  simp only [ringList] at hp ⊢
  rw [hp, List.range_succ, List.map_append]
  congr 1
  · apply List.map_congr_left
    intro k hk
    have hk2 := List.mem_range.mp hk
    have hne : ringPos f.rx_buf_tail (k + 1) ≠ advanceIdx f.rx_buf_head :=
      ringPos_ne_newhead ht1 ht2 hh1 hh2 (by omega) (by omega) (by omega)
    simp only [if_neg hne]
  · have heq : ringPos f.rx_buf_tail (ringPending f + 1) = advanceIdx f.rx_buf_head := by
      rw [hpend]
      exact ringPos_newhead ht1 ht2 hh1 hh2 (by omega)
    simp [heq]

lemma validRing_pop (f : FdUSART) (hv : ValidRing f) :
    ValidRing { f with rx_buf_tail := advanceIdx f.rx_buf_tail } := by
  obtain ⟨hh1, hh2, ht1, ht2⟩ := hv
  refine ⟨hh1, hh2, ?_, ?_⟩ <;>
    · simp only [advanceIdx, USART_RX_BUFSIZE]
      split_ifs <;> omega

lemma ringList_head (f : FdUSART) (hv : ValidRing f) (hne : ringPending f ≠ 0) :
    ringList f = f.rx_buf (advanceIdx f.rx_buf_tail) ::
      ringList { f with rx_buf_tail := advanceIdx f.rx_buf_tail } := by
  obtain ⟨hh1, hh2, ht1, ht2⟩ := hv
  have hlt := ringPending_lt f
  obtain ⟨m, hm⟩ : ∃ m, ringPending f = m + 1 := ⟨ringPending f - 1, by omega⟩
  have hm29 : m ≤ 29 := by omega
  have hm2 : ringPending { f with rx_buf_tail := advanceIdx f.rx_buf_tail } = m := by
    simp only [ringPending, advanceIdx, USART_RX_BUFSIZE] at hm ⊢
    split_ifs at hm ⊢ <;> omega
  simp only [ringList, hm, hm2]
  rw [List.range_succ_eq_map]
  simp only [List.map_cons, List.map_map]
  congr 1
  · rw [show (0 : Nat) + 1 = 1 from rfl, ringPos_one ht1 ht2]
  · apply List.map_congr_left
    intro k hk
    have hk2 := List.mem_range.mp hk
    simp only [Function.comp_apply]
    rw [ringPos_shift ht1 ht2 (by omega) (by omega)]

lemma read_char_empty_blocking (s : Sys)
    (hempty : s.usb.rx_buf_head = s.usb.rx_buf_tail)
    (hb : BLOCKING_ENABLED s.usb.flags ≠ 0) :
    read_char_USART .usb s = none := by
  simp only [read_char_USART, Sys.dev, hempty, if_true, if_neg hb, if_pos rfl]

lemma read_char_usb_pop (s : Sys) (hv : ValidRing s.usb)
    (hne : s.usb.rx_buf_head ≠ s.usb.rx_buf_tail) :
    ∃ s2 : Sys,
      read_char_USART .usb s =
        some (s.usb.rx_buf (advanceIdx s.usb.rx_buf_tail), s2) ∧
      s2.usb = { s.usb with rx_buf_tail := advanceIdx s.usb.rx_buf_tail } := by
  obtain ⟨hh1, hh2, ht1, ht2⟩ := hv
  have key : read_char_USART .usb s =
      some (s.usb.rx_buf (advanceIdx s.usb.rx_buf_tail),
        if ECHO_ENABLED s.usb.flags ≠ 0 then
          { s with usb := { s.usb with rx_buf_tail := advanceIdx s.usb.rx_buf_tail },
                   out := s.out ++ [s.usb.rx_buf (advanceIdx s.usb.rx_buf_tail)] }
        else { s with usb := { s.usb with rx_buf_tail := advanceIdx s.usb.rx_buf_tail } }) := by
    simp only [read_char_USART, Sys.dev, Sys.setDev, echo_to_console, write_char_USART,
      advanceIdx, USART_RX_BUFSIZE]
    rw [if_neg hne]
    by_cases ht : s.usb.rx_buf_tail = 1
    · simp [ht]
    · have h0 : ¬ s.usb.rx_buf_tail = 0 := by omega
      have hsub : ¬ s.usb.rx_buf_tail - 1 = 0 := by omega
      simp [ht, h0, hsub]
  refine ⟨_, key, ?_⟩
  split_ifs <;> rfl

lemma pushedOf_push (c : Int) (ops : List Op) :
    pushedOf (.push c :: ops) = c :: pushedOf ops := rfl

lemma pushedOf_pop (ops : List Op) : pushedOf (.pop :: ops) = pushedOf ops := rfl

lemma ringPending_zero_of_eq (f : FdUSART) (hv : ValidRing f)
    (h : f.rx_buf_head = f.rx_buf_tail) : ringPending f = 0 := by
  obtain ⟨hh1, hh2, ht1, ht2⟩ := hv
  simp only [ringPending]
  omega

lemma ringPending_ne_zero_of_ne (f : FdUSART) (hv : ValidRing f)
    (h : f.rx_buf_head ≠ f.rx_buf_tail) : ringPending f ≠ 0 := by
  obtain ⟨hh1, hh2, ht1, ht2⟩ := hv
  simp only [ringPending]
  omega

lemma runAux_fifo :
    ∀ (ops : List Op) (s : Sys) (acc P : List Int),
      ValidRing s.usb →
      (P = acc ++ ringList s.usb ∨
        (31 ≤ P.length ∧ ∃ d, P = (acc ++ ringList s.usb) ++ [d])) →
      P.length + (pushedOf ops).length ≤ 31 →
      (runAux ops s acc).2 <+: P ++ pushedOf ops := by
  intro ops
  induction ops with
  | nil =>
    intro s acc P hv hinv hbud
    simp only [runAux, pushedOf, List.append_nil]
    rcases hinv with h | ⟨hlen, d, h⟩
    · rw [h]
      exact List.prefix_append acc _
    · rw [h, List.append_assoc]
      exact List.prefix_append acc _
  | cons op ops ih =>
    cases op with
    | push c =>
      intro s acc P hv hinv hbud
      rw [pushedOf_push] at hbud ⊢
      simp only [List.length_cons] at hbud
      rcases hinv with h | ⟨hlen, d, h⟩
      · have happ : P ++ c :: pushedOf ops = (P ++ [c]) ++ pushedOf ops := by simp
        rw [happ]
        by_cases hfull : ringPending s.usb < 30
        · simp only [runAux]
          apply ih (usb_rx_isr c s) acc (P ++ [c])
          · exact validRing_push s.usb c hv hfull
          · left
            have hr : ringList (usb_rx_isr c s).usb = ringList s.usb ++ [c] :=
              ringList_push s.usb c hv hfull
            rw [hr, h]
            simp
          · simp only [List.length_append, List.length_cons, List.length_nil]
            omega
        · have hlt := ringPending_lt s.usb
          have hp30 : ringPending s.usb = 30 := by omega
          have hfull2 : isrNextHead s.usb.rx_buf_head = s.usb.rx_buf_tail := by
            obtain ⟨hh1, hh2, ht1, ht2⟩ := hv
            rw [isrNextHead_eq_advanceIdx hh1]
            simp only [advanceIdx, ringPending, USART_RX_BUFSIZE] at hp30 ⊢
            split_ifs <;> omega
          have hframe : isrBody s.usb c = s.usb :=
            isrBody_full_frame s.usb c hv.1 (by simpa [USART_RX_BUFSIZE] using hv.2.1) hfull2
          have hs : usb_rx_isr c s = s := by
            simp only [usb_rx_isr, hframe]
          simp only [runAux, hs]
          apply ih s acc (P ++ [c]) hv
          · right
            refine ⟨?_, c, by rw [h]⟩
            have : (ringList s.usb).length = 30 := by rw [ringList_length, hp30]
            rw [h]
            simp only [List.length_append, List.length_cons, List.length_nil, this]
            omega
          · simp only [List.length_append, List.length_cons, List.length_nil]
            omega
      · exfalso
        omega
    | pop =>
      intro s acc P hv hinv hbud
      rw [pushedOf_pop] at hbud ⊢
      by_cases hemp : s.usb.rx_buf_head = s.usb.rx_buf_tail
      · by_cases hb : BLOCKING_ENABLED s.usb.flags = 0
        · have hrc := read_char_empty_nonblocking s hemp hb
          simp only [runAux, hrc, if_pos hemp]
          exact ih _ acc P hv hinv hbud
        · have hrc := read_char_empty_blocking s hemp hb
          simp only [runAux, hrc]
          exact ih _ acc P hv hinv hbud
      · obtain ⟨s2, hrc, hs2⟩ := read_char_usb_pop s hv hemp
        have hpne : ringPending s.usb ≠ 0 := ringPending_ne_zero_of_ne s.usb hv hemp
        have hhead := ringList_head s.usb hv hpne
        simp only [runAux, hrc, if_neg hemp]
        apply ih s2 (acc ++ [s.usb.rx_buf (advanceIdx s.usb.rx_buf_tail)]) P
        · rw [hs2]
          exact validRing_pop s.usb hv
        · rcases hinv with h | ⟨hlen, d, h⟩
          · left
            rw [h, hhead, hs2]
            simp
          · right
            refine ⟨hlen, d, ?_⟩
            rw [h, hhead, hs2]
            simp
        · exact hbud

/-- C2 (amended to the USB device): for the USB receive ring buffer, any
sequence of fewer-than-capacity interrupt pushes interleaved with foreground
single-character pops, starting from an empty buffer with valid indices,
pops bytes in exactly the order they were pushed: the popped sequence is a
prefix of the pushed sequence.  The decrement-and-wrap buffer together with
the USB pop thus refines an abstract FIFO queue (`ringList` is the
abstraction; see `ringList_push` and `ringList_head`).  The original claim,
quantified over every device, fails for RS-485 (see the counterexample):
its pop wraps the wrong tail index. -/
theorem usb_ring_fifo_refinement (ops : List Op) (s : Sys)
    (hinit : s.usb.rx_buf_head = s.usb.rx_buf_tail)
    (hv : ValidRing s.usb)
    (hN : (pushedOf ops).length < USART_RX_BUFSIZE) :
    (runAux ops s []).2 <+: pushedOf ops := by
  have h0 : ringList s.usb = [] := by
    have hz : ringPending s.usb = 0 := ringPending_zero_of_eq s.usb hv hinit
    simp [ringList, hz]
  have hmain := runAux_fifo ops s [] [] hv (Or.inl (by simp [h0]))
    (by simp only [USART_RX_BUFSIZE] at hN; simp; omega)
  simpa using hmain

/-- Witness for the amended C2 on a concrete run: push 65, pop, push 66,
pop, pop-on-empty; the bytes pop in push order. -/
theorem usb_ring_fifo_refinement_witness :
    (sysInit.usb.rx_buf_head = sysInit.usb.rx_buf_tail ∧ ValidRing sysInit.usb ∧
      (pushedOf opsW).length < USART_RX_BUFSIZE) ∧
    (runAux opsW sysInit []).2 <+: pushedOf opsW :=
  ⟨⟨rfl, ⟨by decide, by decide, by decide, by decide⟩, by decide⟩,
   usb_ring_fifo_refinement opsW sysInit rfl
     ⟨by decide, by decide, by decide, by decide⟩ (by decide)⟩

/-- Counterexample to C2 as stated over every device: on the RS-485 device,
push byte 65 into the empty valid buffer (head and tail 1, zeroed storage)
and pop once; the pop returns byte 0, which was never pushed, because the
tail-wrap assignment of the pop targets `fd_usb` and the RS-485 read then
happens at the never-used index 0.  FIFO order is violated at the first
pop. -/
theorem rs485_pop_breaks_fifo :
    (read_char_USART .rs485 (rs485_rx_isr 65 sysInit)).map Prod.fst = some 0 ∧
    (0 : Int) ≠ 65 :=
  ⟨rfl, by decide⟩
